import Mathlib

/-!
Verification of the query-translation-and-self-repair pipeline
(backend/services/mongoService.js, backend/services/queryGenerator.js,
backend/server.js) against its natural-language specification.

The JavaScript data values flowing through the pipeline are JSON-shaped
structures plus native `Date` objects produced by the temporal normalizer.
We embed them as `JsonValue`.  JavaScript `Date` objects are represented by
their time value: `some t` is a date holding `t` milliseconds since the Unix
epoch, `none` is the JavaScript `Invalid Date`.
-/

inductive JsonValue : Type where
  | null
  | bool (b : Bool)
  | num (n : Int)
  | str (s : String)
  | date (t : Option Int)
  | arr (xs : List JsonValue)
  | obj (fs : List (String × JsonValue))

/-- Numeric value of a decimal digit character. -/
def digitVal (c : Char) : Nat := c.toNat - 48

/-- Gregorian leap-year test. -/
def isLeapYear (y : Nat) : Bool := (y % 4 == 0 && y % 100 != 0) || y % 400 == 0

/-- Number of days in month `m` (1-12) of year `y`. -/
def daysInMonth (y m : Nat) : Nat :=
  if m = 2 then (if isLeapYear y then 29 else 28)
  else if m = 4 ∨ m = 6 ∨ m = 9 ∨ m = 11 then 30
  else 31

/-- Days from the Unix epoch (1970-01-01) to the civil date `y-m-d`
(standard days-from-civil algorithm). -/
def daysFromCivil (y m d : Nat) : Int :=
  let y' : Int := if m ≤ 2 then (y : Int) - 1 else (y : Int)
  let era : Int := (if 0 ≤ y' then y' else y' - 399) / 400
  let yoe : Int := y' - era * 400
  let mp : Int := if 2 < m then (m : Int) - 3 else (m : Int) + 9
  let doy : Int := (153 * mp + 2) / 5 + (d : Int) - 1
  let doe : Int := yoe * 365 + yoe / 4 - yoe / 100 + doy
  era * 146097 + doe - 719468

/-- Inverse of `daysFromCivil`: the civil date `(y, m, d)` of day `z`
counted from the Unix epoch (standard civil-from-days algorithm). -/
def civilFromDays (z0 : Int) : Int × Nat × Nat :=
  let z : Int := z0 + 719468
  let era : Int := (if 0 ≤ z then z else z - 146096) / 146097
  let doe : Nat := (z - era * 146097).toNat
  let yoe : Nat := (doe - doe / 1460 + doe / 36524 - doe / 146096) / 365
  let doy : Nat := doe - (365 * yoe + yoe / 4 - yoe / 100)
  let mp : Nat := (5 * doy + 2) / 153
  let d : Nat := doy - (153 * mp + 2) / 5 + 1
  let m : Nat := if mp < 10 then mp + 3 else mp - 9
  let y : Int := (yoe : Int) + era * 400 + (if m ≤ 2 then 1 else 0)
  (y, m, d)

/-- Splits a string of the exact shape `YYYY-MM-DDTHH:mm:ss[.sss]Z` into its
numeric components `(year, month, day, hour, minute, second, millisecond)`.
This is the shape recognised by the source's regular expression
`^\d\x7b4\x7d-\d\x7b2\x7d-\d\x7b2\x7dT\d\x7b2\x7d:\d\x7b2\x7d:\d\x7b2\x7d(\.\d\x7b3\x7d)?Z$`. -/
def isoParts (s : String) : Option (Nat × Nat × Nat × Nat × Nat × Nat × Nat) :=
  match s.data with
  | y1 :: y2 :: y3 :: y4 :: '-' :: m1 :: m2 :: '-' :: d1 :: d2 :: 'T' ::
      h1 :: h2 :: ':' :: n1 :: n2 :: ':' :: s1 :: s2 :: rest =>
    if y1.isDigit && y2.isDigit && y3.isDigit && y4.isDigit &&
       m1.isDigit && m2.isDigit && d1.isDigit && d2.isDigit &&
       h1.isDigit && h2.isDigit && n1.isDigit && n2.isDigit &&
       s1.isDigit && s2.isDigit then
      let y := digitVal y1 * 1000 + digitVal y2 * 100 + digitVal y3 * 10 + digitVal y4
      let mo := digitVal m1 * 10 + digitVal m2
      let da := digitVal d1 * 10 + digitVal d2
      let ho := digitVal h1 * 10 + digitVal h2
      let mi := digitVal n1 * 10 + digitVal n2
      let se := digitVal s1 * 10 + digitVal s2
      match rest with
      | ['Z'] => some (y, mo, da, ho, mi, se, 0)
      | '.' :: a :: b :: c :: ['Z'] =>
        if a.isDigit && b.isDigit && c.isDigit then
          some (y, mo, da, ho, mi, se, digitVal a * 100 + digitVal b * 10 + digitVal c)
        else none
      | _ => none
    else none
  | _ => none

/-- The source's `isoDateRegex.test(value)`: does the string lexically match
`YYYY-MM-DDTHH:mm:ss[.sss]Z`? -/
def isoDateMatch (s : String) : Bool := (isoParts s).isSome

/-- Model of the JavaScript `new Date(s)` constructor restricted to the ISO
date-time strings this program feeds it: a string of the exact shape
`YYYY-MM-DDTHH:mm:ss[.sss]Z` with in-range components parses to its epoch
millisecond value; every other string yields the JavaScript `Invalid Date`,
modelled as `none`. -/
def jsDateParse (s : String) : Option Int :=
  match isoParts s with
  | some (y, mo, da, ho, mi, se, ms) =>
    if 1 ≤ mo ∧ mo ≤ 12 ∧ 1 ≤ da ∧ da ≤ daysInMonth y mo ∧ ho ≤ 23 ∧ mi ≤ 59 ∧ se ≤ 59 then
      some (daysFromCivil y mo da * 86400000 +
        (ho : Int) * 3600000 + (mi : Int) * 60000 + (se : Int) * 1000 + (ms : Int))
    else none
  | none => none

/-- Left-pads the decimal rendering of `n` with zeros to width `w`. -/
def natPad (n w : Nat) : String :=
  let s := toString n
  String.mk (List.replicate (w - s.length) '0') ++ s

/-- Model of JavaScript `Date.prototype.toISOString` (used implicitly by
`JSON.stringify` on `Date` values): renders an epoch millisecond value as
`YYYY-MM-DDTHH:mm:ss.sssZ`. -/
def toISOString (t : Int) : String :=
  let days : Int := Int.ediv t 86400000
  let msday : Nat := (Int.emod t 86400000).toNat
  let c := civilFromDays days
  let y : Int := c.1
  let mo : Nat := c.2.1
  let da : Nat := c.2.2
  natPad y.toNat 4 ++ "-" ++ natPad mo 2 ++ "-" ++ natPad da 2 ++ "T" ++
    natPad (msday / 3600000) 2 ++ ":" ++ natPad (msday / 60000 % 60) 2 ++ ":" ++
    natPad (msday / 1000 % 60) 2 ++ "." ++ natPad (msday % 1000) 3 ++ "Z"

/-- The source's check `value.$date && typeof value.$date === "string"` on an
object: returns the `$date` field's string when that field exists, is a
string, and is truthy (a non-empty string); `none` otherwise. -/
def dateWrapped (fs : List (String × JsonValue)) : Option String :=
  match List.lookup "$date" fs with
  | some (.str d) => if d = "" then none else some d
  | _ => none

mutual
/-- The action the source's `convertDateStrings` loop applies to each object
field value or array element `value` (mongoService.js lines 10-20,
queryGenerator.js lines 11-21): a string matching the ISO pattern becomes
`new Date(value)`; a non-null object with a truthy string `$date` field
becomes `new Date(value.$date)`; any other object or array is recursed into;
all other values are left untouched.  A JavaScript `Date` is itself
`typeof "object"` without a `$date` field, and recursing into it changes
nothing, so dates pass through unchanged. -/
def convertEntry : JsonValue → JsonValue
  | .null => .null
  | .bool b => .bool b
  | .num n => .num n
  | .date t => .date t
  | .str s => if isoDateMatch s then .date (jsDateParse s) else .str s
  | .arr xs => .arr (convertList xs)
  | .obj fs =>
    match dateWrapped fs with
    | some d => .date (jsDateParse d)
    | none => .obj (convertFields fs)
/-- `convertEntry` applied to each element of an array. -/
def convertList : List JsonValue → List JsonValue
  | [] => []
  | x :: xs => convertEntry x :: convertList xs
/-- `convertEntry` applied to each field value of an object. -/
def convertFields : List (String × JsonValue) → List (String × JsonValue)
  | [] => []
  | (k, v) :: fs => (k, convertEntry v) :: convertFields fs
end

/-- The source's `convertDateStrings(obj)` (mongoService.js lines 5-24,
queryGenerator.js lines 6-25): `for (const key in obj)` rewrites each own
property of `obj` in place via the per-entry action and returns `obj`.
Iterating `for...in` over a primitive visits no writable properties, so a
non-object top-level argument is returned unchanged; in particular the
top-level value itself is never tested against the pattern, only the values
stored under its keys are. -/
def convertDateStrings : JsonValue → JsonValue
  | .arr xs => .arr (convertList xs)
  | .obj fs => .obj (convertFields fs)
  | v => v

mutual
/-- `JSON.parse(JSON.stringify(x))`, the deep copy taken before every store
attempt (mongoService.js lines 80-82).  On JSON data it is the identity;
a valid `Date` serialises to its ISO string (via `toJSON`/`toISOString`)
and an invalid `Date` serialises to `null`. -/
def jsonRoundTrip : JsonValue → JsonValue
  | .null => .null
  | .bool b => .bool b
  | .num n => .num n
  | .str s => .str s
  | .date (some t) => .str (toISOString t)
  | .date none => .null
  | .arr xs => .arr (jsonRoundTripList xs)
  | .obj fs => .obj (jsonRoundTripFields fs)

/-- `jsonRoundTrip` on each element of an array. -/
def jsonRoundTripList : List JsonValue → List JsonValue
  | [] => []
  | x :: xs => jsonRoundTrip x :: jsonRoundTripList xs

/-- `jsonRoundTrip` on each field of an object. -/
def jsonRoundTripFields : List (String × JsonValue) → List (String × JsonValue)
  | [] => []
  | (k, v) :: fs => (k, jsonRoundTrip v) :: jsonRoundTripFields fs
end

/-! ## Paths into a JSON structure

A path addresses a value nested at arbitrary depth: each step selects an
object field by key or an array element by index.  `getPath v p = some w`
means `w` sits at position `p` inside `v`. -/

inductive PathStep : Type where
  | key (k : String)
  | idx (i : Nat)

/-- Looks up the value at path `p` inside `v`. -/
def getPath : JsonValue → List PathStep → Option JsonValue
  | v, [] => some v
  | .obj fs, .key k :: p =>
    match List.lookup k fs with
    | some w => getPath w p
    | none => none
  | .arr xs, .idx i :: p =>
    match xs[i]? with
    | some w => getPath w p
    | none => none
  | _, _ :: _ => none

/-- A value the normalizer replaces wholesale when it meets it as an object
field or array element: an object whose `$date` field is a truthy string.
Everything nested strictly below such a value disappears with it. -/
def isShadow : JsonValue → Bool
  | .obj fs => (dateWrapped fs).isSome
  | _ => false

/-! ## The Query Executor (mongoService.js, `executeQueryWithRetry`)

The store (`this.collection.aggregate(...).toArray()`) and the repairer
(`queryGenerator.fixQuery`) are external collaborators; the embedding takes
them as function arguments.  A store call receives the zero-based attempt
index and the processed query and either returns records or fails with an
error message; a repair call receives the original request text, the error
message and the failed query and either returns a replacement query or
fails.  The run is recorded as a trace of calls plus a final outcome. -/

inductive ExecEvent : Type where
  | storeAttempt (q : JsonValue)
  | repairCall (failedQuery : JsonValue) (errMsg : String)

/-- Is this trace event a store attempt? -/
def isStoreEvent : ExecEvent → Bool
  | .storeAttempt _ => true
  | .repairCall _ _ => false

/-- Is this trace event a repair call? -/
def isRepairEvent : ExecEvent → Bool
  | .storeAttempt _ => false
  | .repairCall _ _ => true

/-- Outcome of `executeQueryWithRetry`: a result set, a thrown error, or the
JavaScript `undefined` that an `async` function returns when the loop body
never runs and no `return` is reached. -/
inductive ExecOutcome : Type where
  | results (rs : List JsonValue)
  | error (msg : String)
  | undef

/-- The `for (let attempt = 0; attempt < maxRetries; attempt++)` loop of
`executeQueryWithRetry` (mongoService.js lines 70-121), with `remaining`
the number of loop iterations still allowed, so `remaining = 0` means the
guard `attempt < maxRetries` has just failed and `remaining = 1` means the
current attempt is the last one (`attempt === maxRetries - 1`).  `n` is the
`maxRetries` value interpolated into the terminal error message.  Each
iteration deep-copies the current query, re-normalizes the copy, calls the
store, and on failure either throws (last attempt), or calls the repairer
and continues with its output, or rethrows the repairer's failure. -/
def execLoop (store : Nat → JsonValue → Except String (List JsonValue))
    (repair : String → String → JsonValue → Except String JsonValue)
    (req : String) (n : Nat) :
    Nat → Nat → JsonValue → List ExecEvent × ExecOutcome
  | 0, _, _ => ([], .undef)
  | remaining + 1, attempt, currentQuery =>
    let processedQuery := convertDateStrings (jsonRoundTrip currentQuery)
    match store attempt processedQuery with
    | .ok results => ([.storeAttempt processedQuery], .results results)
    | .error errMsg =>
      if remaining = 0 then
        ([.storeAttempt processedQuery],
          .error ("Database query failed after " ++ toString n ++ " attempts: " ++ errMsg))
      else
        match repair req errMsg currentQuery with
        | .ok fixedQuery =>
          let rest := execLoop store repair req n remaining (attempt + 1) fixedQuery
          (.storeAttempt processedQuery :: .repairCall currentQuery errMsg :: rest.1, rest.2)
        | .error fixMsg =>
          ([.storeAttempt processedQuery, .repairCall currentQuery errMsg],
            .error ("Query could not be fixed: " ++ fixMsg))

/-- `executeQueryWithRetry(mongoQuery, originalQuery, maxRetries)`
(mongoService.js lines 67-122).  `maxRetries` is a JavaScript number, taken
here as an `Int` so that non-positive arguments are expressible; the loop
runs at most `maxRetries.toNat` iterations, which is zero iterations for any
non-positive `maxRetries`. -/
def executeQueryWithRetry (store : Nat → JsonValue → Except String (List JsonValue))
    (repair : String → String → JsonValue → Except String JsonValue)
    (mongoQuery : JsonValue) (originalQuery : String) (maxRetries : Int) :
    List ExecEvent × ExecOutcome :=
  execLoop store repair originalQuery maxRetries.toNat maxRetries.toNat 0 mongoQuery

/-! ## The Translator's repair operation (queryGenerator.js, `fixQuery`) -/

/-- Does `pat` occur as a contiguous run inside `cs`?  Models
`String.prototype.includes`. -/
def charsContain (cs pat : List Char) : Bool :=
  match cs with
  | [] => pat.isEmpty
  | _ :: rest => pat.isPrefixOf cs || charsContain rest pat

/-- Drops one leading newline, if present. -/
def dropNewline : List Char → List Char
  | '\n' :: r => r
  | r => r

/-- Removes the first occurrence of `pat` together with one directly
following newline: the JavaScript `replace(pat-regex-with-optional-trailing-newline, "")`
used for the opening code fence. -/
def removeOpenFence (pat : List Char) : List Char → List Char
  | [] => []
  | c :: rest =>
    if pat.isPrefixOf (c :: rest) then dropNewline ((c :: rest).drop pat.length)
    else c :: removeOpenFence pat rest

/-- Removes the leftmost match of an optional newline followed by three
backticks: the JavaScript `replace` with the closing-fence regular
expression, whose leftmost match starts at a newline directly preceding the
backticks when there is one. -/
def removeCloseFence : List Char → List Char
  | [] => []
  | c :: rest =>
    if ("\n```".data).isPrefixOf (c :: rest) then (c :: rest).drop 4
    else if ("```".data).isPrefixOf (c :: rest) then (c :: rest).drop 3
    else c :: removeCloseFence rest

/-- The fence-stripping step shared by `generateQuery` and `fixQuery`
(queryGenerator.js lines 186-190): when the text contains a
triple-backtick-json marker, the first such marker (plus one following
newline) and then the first remaining fence are removed; otherwise the same
with a bare triple-backtick marker; text without fences is untouched. -/
def stripFences (s : String) : String :=
  let cs := s.data
  if charsContain cs ("```json".data) then
    String.mk (removeCloseFence (removeOpenFence ("```json".data) cs))
  else if charsContain cs ("```".data) then
    String.mk (removeCloseFence (removeOpenFence ("```".data) cs))
  else s

/-- Model of JavaScript `String.prototype.trim`: removes leading and
trailing whitespace. -/
def jsTrim (s : String) : String :=
  String.mk (((s.data.dropWhile Char.isWhitespace).reverse.dropWhile Char.isWhitespace).reverse)

/-- `fixQuery(originalQuery, errorMessage, failedQuery)` (queryGenerator.js
lines 164-203), from the point where the reasoning service's response is in
hand; the response is `none` when any of `choices[0]?.message?.content` was
absent.  `JSON.parse` is a JavaScript builtin, not repository code, so it is
taken as a function argument.  The body trims the response, throws on a
missing or empty (falsy) one, strips code fences, parses, converts date
strings — and returns the parsed value without any array check; every error
is caught and rethrown as `Failed to fix query: ...`. -/
def fixQueryBody (parse : String → Except String JsonValue) (response : Option String) :
    Except String JsonValue :=
  match response with
  | none => .error "No response from Groq API"
  | some content =>
    let fixed := jsTrim content
    if fixed = "" then .error "No response from Groq API"
    else
      match parse (stripFences fixed) with
      | .error e => .error e
      | .ok parsed => .ok (convertDateStrings parsed)

/-- The enclosing try/catch of `fixQuery`: any error from the body is caught
and rethrown as `Failed to fix query: <message>`; a successful value passes
through. -/
def fixQuery (parse : String → Except String JsonValue) (response : Option String) :
    Except String JsonValue :=
  match fixQueryBody parse response with
  | .error e => .error ("Failed to fix query: " ++ e)
  | .ok v => .ok v

/-- A small concrete JSON parser agreeing with `JSON.parse` on the literals
used in the concrete instances below: a string of decimal digits parses to
that number, `[]` parses to the empty array, anything else is rejected. -/
def tinyJsonParse (s : String) : Except String JsonValue :=
  if !s.data.isEmpty && s.data.all Char.isDigit then
    .ok (.num (s.data.foldl (fun a c => a * 10 + (digitVal c : Int)) 0))
  else if s = "[]" then .ok (.arr []) else .error "Unexpected token"

/-- Is this value an array? -/
def isArrB : JsonValue → Bool
  | .arr _ => true
  | _ => false

/-! ## The outward HTTP boundary (server.js, `/api/query`) -/

/-- The response-shaping applied to the result set in server.js line 75:
`results.length <= 200 ? results : results.slice(0, 50)`. -/
def truncateResults (results : List JsonValue) : List JsonValue :=
  if results.length ≤ 200 then results else results.take 50

/-- A store stub that rejects every attempt with the fixed message `boom`. -/
def alwaysFailStore : Nat → JsonValue → Except String (List JsonValue) :=
  fun _ _ => .error "boom"

/-- The error text `alwaysFailStore` returns for each attempt. -/
def alwaysFailStoreErr : Nat → JsonValue → String := fun _ _ => "boom"

/-- A repair stub that always succeeds, returning the empty pipeline. -/
def alwaysOkRepair : String → String → JsonValue → Except String JsonValue :=
  fun _ _ _ => .ok (.arr [])

/-- The query `alwaysOkRepair` returns for each call. -/
def alwaysOkRepairOut : String → String → JsonValue → JsonValue := fun _ _ _ => .arr []

/-- A repair stub that itself always fails, as a repair call whose response
does not parse does. -/
def alwaysFailRepair : String → String → JsonValue → Except String JsonValue :=
  fun _ _ _ => .error "Unexpected token"

/-! ## Lemmas about the Temporal Normalizer -/

theorem convertList_eq_map (xs : List JsonValue) :
    convertList xs = xs.map convertEntry := by
  induction xs with
  | nil => rfl
  | cons x xs ih => simp [convertList, ih]

theorem convertFields_eq_map (fs : List (String × JsonValue)) :
    convertFields fs = fs.map fun p => (p.1, convertEntry p.2) := by
  induction fs with
  | nil => rfl
  | cons p fs ih => cases p with
    | mk k v => simp [convertFields, ih]

theorem lookup_convertFields (k : String) :
    ∀ fs, List.lookup k (convertFields fs) = (List.lookup k fs).map convertEntry
  | [] => rfl
  | (a, v) :: fs => by
    simp only [convertFields, List.lookup]
    cases h : k == a with
    | true => rfl
    | false => exact lookup_convertFields k fs

theorem getElem?_convertList : ∀ (xs : List JsonValue) (i : Nat),
    (convertList xs)[i]? = xs[i]?.map convertEntry
  | [], _ => by simp [convertList]
  | x :: xs, 0 => by simp [convertList]
  | x :: xs, i + 1 => by
    simpa [convertList] using getElem?_convertList xs i

theorem convertEntry_eq_str (v : JsonValue) (d : String)
    (h : convertEntry v = .str d) : v = .str d := by
  cases v with
  | str s =>
    by_cases hm : isoDateMatch s
    · simp [convertEntry, hm] at h
    · simpa [convertEntry, hm] using h
  | obj fs => cases hw : dateWrapped fs <;> simp [convertEntry, hw] at h
  | arr xs => simp [convertEntry] at h
  | null => simp [convertEntry] at h
  | bool b => simp [convertEntry] at h
  | num n => simp [convertEntry] at h
  | date t => simp [convertEntry] at h

theorem dateWrapped_convertFields (fs : List (String × JsonValue))
    (h : dateWrapped fs = none) : dateWrapped (convertFields fs) = none := by
  unfold dateWrapped at h ⊢
  rw [lookup_convertFields]
  cases hl : List.lookup "$date" fs with
  | none => rfl
  | some v =>
    rw [hl] at h
    cases v with
    | str d =>
      by_cases hd : d = ""
      · subst hd
        simp [convertEntry, show isoDateMatch "" = false from rfl]
      · simp [hd] at h
    | obj gs => cases hw : dateWrapped gs <;> simp [convertEntry, hw]
    | arr xs => simp [convertEntry]
    | null => simp [convertEntry]
    | bool b => simp [convertEntry]
    | num n => simp [convertEntry]
    | date t => simp [convertEntry]

mutual
theorem convertEntry_idem : ∀ v, convertEntry (convertEntry v) = convertEntry v
  | .null => rfl
  | .bool _ => rfl
  | .num _ => rfl
  | .date _ => rfl
  | .str s => by
    by_cases hm : isoDateMatch s <;> simp [convertEntry, hm]
  | .arr xs => congrArg JsonValue.arr (convertList_idem xs)
  | .obj fs => by
    cases hw : dateWrapped fs with
    | some d => simp [convertEntry, hw]
    | none =>
      simp [convertEntry, hw, dateWrapped_convertFields fs hw, convertFields_idem fs]
theorem convertList_idem : ∀ xs, convertList (convertList xs) = convertList xs
  | [] => rfl
  | x :: xs => by simp [convertList, convertEntry_idem x, convertList_idem xs]
theorem convertFields_idem : ∀ fs, convertFields (convertFields fs) = convertFields fs
  | [] => rfl
  | (k, v) :: fs => by simp [convertFields, convertEntry_idem v, convertFields_idem fs]
end

/-- On an object field or array element that is not `$date`-wrapped, the
per-entry action is exactly recursion, i.e. the whole-structure function. -/
theorem convertEntry_eq_convertDateStrings_obj (gs : List (String × JsonValue))
    (hw : dateWrapped gs = none) :
    convertEntry (.obj gs) = convertDateStrings (.obj gs) := by
  simp [convertEntry, convertDateStrings, hw]

/-- Main path lemma: if `w` sits at the non-empty path `p` inside `v` and no
value at a proper non-empty prefix of `p` is an object with a truthy string
`$date` field (which the normalizer would replace wholesale, deleting
everything below it), then after normalization the value at `p` is
`convertEntry w`. -/
theorem getPath_convertDateStrings (p : List PathStep) :
    ∀ (v w : JsonValue), p ≠ [] →
    (∀ q r u, p = q ++ r → q ≠ [] → r ≠ [] → getPath v q = some u → isShadow u = false) →
    getPath v p = some w →
    getPath (convertDateStrings v) p = some (convertEntry w) := by
  induction p with
  | nil => intro v w hp _ _; exact absurd rfl hp
  | cons s p' ih =>
    intro v w _ hsh hget
    cases s with
    | key k =>
      cases v with
      | obj fs =>
        cases hl : List.lookup k fs with
        | none => simp [getPath, hl] at hget
        | some u =>
          have hu : getPath u p' = some w := by simpa [getPath, hl] using hget
          have hl' : List.lookup k (convertFields fs) = some (convertEntry u) := by
            rw [lookup_convertFields, hl]; rfl
          cases p' with
          | nil =>
            have huw : u = w := by simpa [getPath] using hu
            subst huw
            simp [convertDateStrings, getPath, hl']
          | cons s' p'' =>
            have hshu : isShadow u = false := by
              refine hsh [.key k] (s' :: p'') u rfl (by simp) (by simp) ?_
              simp [getPath, hl]
            have hcu : convertEntry u = convertDateStrings u := by
              cases u with
              | obj gs =>
                have hwgs : dateWrapped gs = none := by
                  simpa [isShadow, Option.isSome_iff_exists] using hshu
                exact convertEntry_eq_convertDateStrings_obj gs hwgs
              | arr ys => rfl
              | null => simp [getPath] at hu
              | bool b => simp [getPath] at hu
              | num n => simp [getPath] at hu
              | str t => simp [getPath] at hu
              | date t => simp [getPath] at hu
            have hshift : ∀ q r u', s' :: p'' = q ++ r → q ≠ [] → r ≠ [] →
                getPath u q = some u' → isShadow u' = false := by
              intro q r u' hqr hq hr hq'
              refine hsh (.key k :: q) r u' ?_ (by simp) hr ?_
              · rw [List.cons_append, ← hqr]
              · simpa [getPath, hl] using hq'
            have hrec := ih u w (by simp) hshift hu
            rw [← hcu] at hrec
            simp only [convertDateStrings, getPath, hl']
            exact hrec
      | arr xs => simp [getPath] at hget
      | null => simp [getPath] at hget
      | bool b => simp [getPath] at hget
      | num n => simp [getPath] at hget
      | str t => simp [getPath] at hget
      | date t => simp [getPath] at hget
    | idx i =>
      cases v with
      | arr xs =>
        cases hl : xs[i]? with
        | none => simp [getPath, hl] at hget
        | some u =>
          have hu : getPath u p' = some w := by simpa [getPath, hl] using hget
          have hl' : (convertList xs)[i]? = some (convertEntry u) := by
            rw [getElem?_convertList, hl]; rfl
          cases p' with
          | nil =>
            have huw : u = w := by simpa [getPath] using hu
            subst huw
            simp [convertDateStrings, getPath, hl']
          | cons s' p'' =>
            have hshu : isShadow u = false := by
              refine hsh [.idx i] (s' :: p'') u rfl (by simp) (by simp) ?_
              simp [getPath, hl]
            have hcu : convertEntry u = convertDateStrings u := by
              cases u with
              | obj gs =>
                have hwgs : dateWrapped gs = none := by
                  simpa [isShadow, Option.isSome_iff_exists] using hshu
                exact convertEntry_eq_convertDateStrings_obj gs hwgs
              | arr ys => rfl
              | null => simp [getPath] at hu
              | bool b => simp [getPath] at hu
              | num n => simp [getPath] at hu
              | str t => simp [getPath] at hu
              | date t => simp [getPath] at hu
            have hshift : ∀ q r u', s' :: p'' = q ++ r → q ≠ [] → r ≠ [] →
                getPath u q = some u' → isShadow u' = false := by
              intro q r u' hqr hq hr hq'
              refine hsh (.idx i :: q) r u' ?_ (by simp) hr ?_
              · rw [List.cons_append, ← hqr]
              · simpa [getPath, hl] using hq'
            have hrec := ih u w (by simp) hshift hu
            rw [← hcu] at hrec
            simp only [convertDateStrings, getPath, hl']
            exact hrec
      | obj fs => simp [getPath] at hget
      | null => simp [getPath] at hget
      | bool b => simp [getPath] at hget
      | num n => simp [getPath] at hget
      | str t => simp [getPath] at hget
      | date t => simp [getPath] at hget

/-! ## Claim theorems: the Temporal Normalizer -/

/-- C5: the Temporal Normalizer is idempotent: for every JSON-shaped
structure `S`, `convertDateStrings (convertDateStrings S) = convertDateStrings S`
— normalizing an already-normalized structure changes nothing, because
replaced values are native dates, not strings, and never re-match the
pattern. -/
theorem convertDateStrings_idempotent (S : JsonValue) :
    convertDateStrings (convertDateStrings S) = convertDateStrings S := by
  cases S with
  | arr xs => simp [convertDateStrings, convertList_idem]
  | obj fs => simp [convertDateStrings, convertFields_idem]
  | null => rfl
  | bool b => rfl
  | num n => rfl
  | str s => rfl
  | date t => rfl

/-- C6: the Temporal Normalizer is total: `convertDateStrings` is defined as
a total function over every JSON-shaped input (objects, arrays, strings,
numbers, booleans, null, at arbitrary nesting depth), and every value is
classified exhaustively: a pattern-matching string or a truthy-`$date`
object is replaced by a date, an array or other object is recursed into,
and everything else passes through unchanged. -/
theorem convertDateStrings_total (v : JsonValue) :
    ((∃ s, v = .str s ∧ isoDateMatch s = true ∧ convertEntry v = .date (jsDateParse s)) ∨
     (∃ fs d, v = .obj fs ∧ dateWrapped fs = some d ∧ convertEntry v = .date (jsDateParse d)) ∨
     (∃ xs, v = .arr xs ∧ convertEntry v = .arr (convertList xs)) ∨
     (∃ fs, v = .obj fs ∧ dateWrapped fs = none ∧ convertEntry v = .obj (convertFields fs)) ∨
     convertEntry v = v) ∧
    ((∃ xs, v = .arr xs ∧ convertDateStrings v = .arr (convertList xs)) ∨
     (∃ fs, v = .obj fs ∧ convertDateStrings v = .obj (convertFields fs)) ∨
     convertDateStrings v = v) := by
  constructor
  · cases v with
    | str s =>
      by_cases hm : isoDateMatch s
      · exact Or.inl ⟨s, rfl, hm, by simp [convertEntry, hm]⟩
      · exact Or.inr (Or.inr (Or.inr (Or.inr (by simp [convertEntry, hm]))))
    | arr xs => exact Or.inr (Or.inr (Or.inl ⟨xs, rfl, rfl⟩))
    | obj fs =>
      cases hw : dateWrapped fs with
      | some d => exact Or.inr (Or.inl ⟨fs, d, rfl, hw, by simp [convertEntry, hw]⟩)
      | none => exact Or.inr (Or.inr (Or.inr (Or.inl ⟨fs, rfl, hw, by simp [convertEntry, hw]⟩)))
    | null => exact Or.inr (Or.inr (Or.inr (Or.inr rfl)))
    | bool b => exact Or.inr (Or.inr (Or.inr (Or.inr rfl)))
    | num n => exact Or.inr (Or.inr (Or.inr (Or.inr rfl)))
    | date t => exact Or.inr (Or.inr (Or.inr (Or.inr rfl)))
  · cases v with
    | arr xs => exact Or.inl ⟨xs, rfl, rfl⟩
    | obj fs => exact Or.inr (Or.inl ⟨fs, rfl, rfl⟩)
    | null => exact Or.inr (Or.inr rfl)
    | bool b => exact Or.inr (Or.inr rfl)
    | num n => exact Or.inr (Or.inr rfl)
    | str s => exact Or.inr (Or.inr rfl)
    | date t => exact Or.inr (Or.inr rfl)

/-- C1 (counterexample): an object shaped `\x7b"dateValue": <ISO string>\x7d` does
NOT normalize to a native date value — the wrapper key the code recognises
is `$date`, not `dateValue`; the normalizer merely recurses into the object
and converts the inner string, leaving the wrapper object in place. -/
theorem normalize_dateValue_counterexample :
    convertDateStrings (.obj [("a", .obj [("dateValue", .str "2025-03-14T00:00:00.000Z")])]) =
      .obj [("a", .obj [("dateValue", .date (some 1741910400000))])] ∧
    convertDateStrings (.obj [("a", .obj [("dateValue", .str "2025-03-14T00:00:00.000Z")])]) ≠
      .obj [("a", .date (some 1741910400000))] := by
  constructor
  · rfl
  · intro h
    rw [show convertDateStrings
        (.obj [("a", .obj [("dateValue", .str "2025-03-14T00:00:00.000Z")])]) =
        .obj [("a", .obj [("dateValue", .date (some 1741910400000))])] from rfl] at h
    simp at h

/-- C1 (amended): for every structure with the string
`"2025-03-14T00:00:00.000Z"` nested at any non-empty path along which no
proper ancestor is an object with a truthy string `$date` field,
normalization replaces it with a native date equal to March 14, 2025 UTC
midnight (epoch milliseconds 1741910400000); and a value shaped as
`\x7b"$date": "2025-03-14T00:00:00.000Z"\x7d` — the wrapper key is `$date`, not
`dateValue` — nested at such a path normalizes to that same native date
value. -/
theorem normalize_date_equivalence (v : JsonValue) (p : List PathStep) (hp : p ≠ [])
    (hsh : ∀ q r u, p = q ++ r → q ≠ [] → r ≠ [] → getPath v q = some u → isShadow u = false) :
    (getPath v p = some (.str "2025-03-14T00:00:00.000Z") →
      getPath (convertDateStrings v) p = some (.date (some 1741910400000))) ∧
    (getPath v p = some (.obj [("$date", .str "2025-03-14T00:00:00.000Z")]) →
      getPath (convertDateStrings v) p = some (.date (some 1741910400000))) := by
  constructor
  · intro h
    have hrec := getPath_convertDateStrings p v _ hp hsh h
    rw [show convertEntry (.str "2025-03-14T00:00:00.000Z") =
        .date (some 1741910400000) from rfl] at hrec
    exact hrec
  · intro h
    have hrec := getPath_convertDateStrings p v _ hp hsh h
    rw [show convertEntry (.obj [("$date", .str "2025-03-14T00:00:00.000Z")]) =
        .date (some 1741910400000) from rfl] at hrec
    exact hrec

/-- C1 (witness): both amended conjuncts hold at a concrete depth-one input. -/
theorem normalize_date_equivalence_witness :
    (([PathStep.key "a"] : List PathStep) ≠ []) ∧
    getPath (convertDateStrings (.obj [("a", .str "2025-03-14T00:00:00.000Z")]))
      [PathStep.key "a"] = some (.date (some 1741910400000)) ∧
    getPath (convertDateStrings (.obj [("b", .obj [("$date", .str "2025-03-14T00:00:00.000Z")])]))
      [PathStep.key "b"] = some (.date (some 1741910400000)) := by
  refine ⟨by simp, ?_, ?_⟩
  · exact (normalize_date_equivalence (.obj [("a", .str "2025-03-14T00:00:00.000Z")])
      [PathStep.key "a"] (by simp) (by
        intro q r u hqr hq hr hu
        exfalso
        cases q with
        | nil => exact hq rfl
        | cons s q' =>
          rw [List.cons_append] at hqr
          injection hqr with h1 h2
          exact hr (List.append_eq_nil.mp h2.symm).2)).1 rfl
  · exact (normalize_date_equivalence
      (.obj [("b", .obj [("$date", .str "2025-03-14T00:00:00.000Z")])])
      [PathStep.key "b"] (by simp) (by
        intro q r u hqr hq hr hu
        exfalso
        cases q with
        | nil => exact hq rfl
        | cons s q' =>
          rw [List.cons_append] at hqr
          injection hqr with h1 h2
          exact hr (List.append_eq_nil.mp h2.symm).2)).2 rfl

/-- C10 (counterexample): an object whose `$date` field is the empty string
carries a string-valued `$date` property but is NOT replaced — the source
guards with JavaScript truthiness (`value.$date && ...`), and the empty
string is falsy, so the normalizer recurses instead of converting. -/
theorem dateWrapper_counterexample :
    convertDateStrings (.obj [("a", .obj [("$date", .str "")])]) =
      .obj [("a", .obj [("$date", .str "")])] ∧
    convertDateStrings (.obj [("a", .obj [("$date", .str "")])]) ≠
      .obj [("a", .date (jsDateParse ""))] := by
  constructor
  · rfl
  · intro h
    rw [show convertDateStrings (.obj [("a", .obj [("$date", .str "")])]) =
        .obj [("a", .obj [("$date", .str "")])] from rfl] at h
    simp [jsDateParse, isoParts] at h

/-- C10 (amended): for every object value carrying a NON-EMPTY string-valued
`$date` property — truthiness is the only guard — the normalizer replaces
the entire object with a date parsed from that string, with no pattern
validation and no single-key-shape check: extra keys are ignored. -/
theorem dateWrapper_conversion (fs : List (String × JsonValue)) (d : String)
    (h : List.lookup "$date" fs = some (.str d)) (hd : d ≠ "") :
    convertEntry (.obj fs) = .date (jsDateParse d) := by
  simp [convertEntry, dateWrapped, h, hd]

/-- C10 (witness): a `$date` string that fails the ISO pattern, in an object
with an extra key, is still converted wholesale. -/
theorem dateWrapper_conversion_witness :
    List.lookup "$date" [("x", JsonValue.num 1), ("$date", JsonValue.str "not-a-date")] =
      some (JsonValue.str "not-a-date") ∧ ("not-a-date" : String) ≠ "" ∧
    convertEntry (.obj [("x", JsonValue.num 1), ("$date", JsonValue.str "not-a-date")]) =
      .date (jsDateParse "not-a-date") :=
  ⟨rfl, by decide, dateWrapper_conversion _ "not-a-date" rfl (by decide)⟩

/-! ## Step lemmas for the Query Executor loop -/

theorem execLoop_zero (store : Nat → JsonValue → Except String (List JsonValue))
    (repair : String → String → JsonValue → Except String JsonValue)
    (req : String) (n attempt : Nat) (cur : JsonValue) :
    execLoop store repair req n 0 attempt cur = ([], .undef) := rfl

theorem execLoop_succ (store : Nat → JsonValue → Except String (List JsonValue))
    (repair : String → String → JsonValue → Except String JsonValue)
    (req : String) (n remaining attempt : Nat) (cur : JsonValue) :
    execLoop store repair req n (remaining + 1) attempt cur =
      (match store attempt (convertDateStrings (jsonRoundTrip cur)) with
       | .ok results =>
         ([.storeAttempt (convertDateStrings (jsonRoundTrip cur))], .results results)
       | .error errMsg =>
         if remaining = 0 then
           ([.storeAttempt (convertDateStrings (jsonRoundTrip cur))],
             .error ("Database query failed after " ++ toString n ++ " attempts: " ++ errMsg))
         else
           match repair req errMsg cur with
           | .ok fixedQuery =>
             (.storeAttempt (convertDateStrings (jsonRoundTrip cur)) ::
                .repairCall cur errMsg ::
                (execLoop store repair req n remaining (attempt + 1) fixedQuery).1,
              (execLoop store repair req n remaining (attempt + 1) fixedQuery).2)
           | .error fixMsg =>
             ([.storeAttempt (convertDateStrings (jsonRoundTrip cur)), .repairCall cur errMsg],
               .error ("Query could not be fixed: " ++ fixMsg))) := rfl

theorem execLoop_ok {store : Nat → JsonValue → Except String (List JsonValue)}
    {repair : String → String → JsonValue → Except String JsonValue}
    {req : String} {n remaining attempt : Nat} {cur : JsonValue} {rs : List JsonValue}
    (hs : store attempt (convertDateStrings (jsonRoundTrip cur)) = .ok rs) :
    execLoop store repair req n (remaining + 1) attempt cur =
      ([.storeAttempt (convertDateStrings (jsonRoundTrip cur))], .results rs) := by
  rw [execLoop_succ, hs]

theorem execLoop_err_last {store : Nat → JsonValue → Except String (List JsonValue)}
    {repair : String → String → JsonValue → Except String JsonValue}
    {req : String} {n attempt : Nat} {cur : JsonValue} {e : String}
    (hs : store attempt (convertDateStrings (jsonRoundTrip cur)) = .error e) :
    execLoop store repair req n 1 attempt cur =
      ([.storeAttempt (convertDateStrings (jsonRoundTrip cur))],
        .error ("Database query failed after " ++ toString n ++ " attempts: " ++ e)) := by
  rw [show execLoop store repair req n 1 attempt cur =
    execLoop store repair req n (0 + 1) attempt cur from rfl, execLoop_succ, hs]
  rfl

theorem execLoop_err_repairOk {store : Nat → JsonValue → Except String (List JsonValue)}
    {repair : String → String → JsonValue → Except String JsonValue}
    {req : String} {n remaining attempt : Nat} {cur : JsonValue} {e : String} {q1 : JsonValue}
    (hs : store attempt (convertDateStrings (jsonRoundTrip cur)) = .error e)
    (hrem : remaining ≠ 0)
    (hr : repair req e cur = .ok q1) :
    execLoop store repair req n (remaining + 1) attempt cur =
      (.storeAttempt (convertDateStrings (jsonRoundTrip cur)) ::
         .repairCall cur e ::
         (execLoop store repair req n remaining (attempt + 1) q1).1,
       (execLoop store repair req n remaining (attempt + 1) q1).2) := by
  rw [execLoop_succ, hs]
  dsimp only
  rw [if_neg hrem, hr]

theorem execLoop_err_repairFail {store : Nat → JsonValue → Except String (List JsonValue)}
    {repair : String → String → JsonValue → Except String JsonValue}
    {req : String} {n remaining attempt : Nat} {cur : JsonValue} {e fm : String}
    (hs : store attempt (convertDateStrings (jsonRoundTrip cur)) = .error e)
    (hrem : remaining ≠ 0)
    (hr : repair req e cur = .error fm) :
    execLoop store repair req n (remaining + 1) attempt cur =
      ([.storeAttempt (convertDateStrings (jsonRoundTrip cur)), .repairCall cur e],
        .error ("Query could not be fixed: " ++ fm)) := by
  rw [execLoop_succ, hs]
  dsimp only
  rw [if_neg hrem, hr]

/-! ## Claim theorems: the Query Executor -/

/-- C2: if the data store rejects every attempt and every repair call
succeeds, `executeQueryWithRetry(q, r, 2)` performs exactly 2 store attempts
and exactly 1 repair call, then fails with an error whose message mentions
"2 attempts" and includes the final underlying store error text. -/
theorem executeWithRetry_retry_bound
    (store : Nat → JsonValue → Except String (List JsonValue))
    (repair : String → String → JsonValue → Except String JsonValue)
    (storeErr : Nat → JsonValue → String)
    (repairOut : String → String → JsonValue → JsonValue)
    (q : JsonValue) (req : String)
    (hstore : ∀ i pq, store i pq = .error (storeErr i pq))
    (hrepair : ∀ o e f, repair o e f = .ok (repairOut o e f)) :
    ((executeQueryWithRetry store repair q req 2).1.countP isStoreEvent = 2) ∧
    ((executeQueryWithRetry store repair q req 2).1.countP isRepairEvent = 1) ∧
    ∃ msg, (executeQueryWithRetry store repair q req 2).2 = .error msg ∧
      msg = "Database query failed after 2 attempts: " ++
        storeErr 1 (convertDateStrings (jsonRoundTrip
          (repairOut req (storeErr 0 (convertDateStrings (jsonRoundTrip q))) q))) ∧
      ("2 attempts").data <:+: msg.data ∧
      (storeErr 1 (convertDateStrings (jsonRoundTrip
        (repairOut req (storeErr 0 (convertDateStrings (jsonRoundTrip q))) q)))).data <:+:
        msg.data := by
  have hrun : executeQueryWithRetry store repair q req 2 =
      ([.storeAttempt (convertDateStrings (jsonRoundTrip q)),
        .repairCall q (storeErr 0 (convertDateStrings (jsonRoundTrip q))),
        .storeAttempt (convertDateStrings (jsonRoundTrip
          (repairOut req (storeErr 0 (convertDateStrings (jsonRoundTrip q))) q)))],
       .error ("Database query failed after 2 attempts: " ++
         storeErr 1 (convertDateStrings (jsonRoundTrip
           (repairOut req (storeErr 0 (convertDateStrings (jsonRoundTrip q))) q))))) := by
    show execLoop store repair req 2 (1 + 1) 0 q = _
    rw [execLoop_err_repairOk (hstore 0 _) one_ne_zero (hrepair req _ q)]
    rw [execLoop_err_last (hstore (0 + 1) _)]
    rfl
  refine ⟨by rw [hrun]; rfl, by rw [hrun]; rfl, ?_⟩
  refine ⟨"Database query failed after 2 attempts: " ++
    storeErr 1 (convertDateStrings (jsonRoundTrip
      (repairOut req (storeErr 0 (convertDateStrings (jsonRoundTrip q))) q))),
    by rw [hrun], rfl, ?_, ?_⟩
  · refine ⟨"Database query failed after ".data,
      ": ".data ++ (storeErr 1 (convertDateStrings (jsonRoundTrip
        (repairOut req (storeErr 0 (convertDateStrings (jsonRoundTrip q))) q)))).data, ?_⟩
    rw [String.data_append]
    rw [show ("Database query failed after 2 attempts: ").data =
      "Database query failed after ".data ++ ("2 attempts".data ++ ": ".data) from rfl]
    simp [List.append_assoc]
  · refine ⟨("Database query failed after 2 attempts: ").data, [], ?_⟩
    rw [String.data_append]
    simp

/-- C2 (witness): the retry bound at a concrete always-failing store and
always-succeeding repairer. -/
theorem executeWithRetry_retry_bound_witness :
    ((executeQueryWithRetry alwaysFailStore alwaysOkRepair (.arr []) "req" 2).1.countP
      isStoreEvent = 2) ∧
    ((executeQueryWithRetry alwaysFailStore alwaysOkRepair (.arr []) "req" 2).1.countP
      isRepairEvent = 1) ∧
    ∃ msg, (executeQueryWithRetry alwaysFailStore alwaysOkRepair (.arr []) "req" 2).2 =
        .error msg ∧
      msg = "Database query failed after 2 attempts: " ++ "boom" ∧
      ("2 attempts").data <:+: msg.data ∧
      ("boom").data <:+: msg.data :=
  executeWithRetry_retry_bound alwaysFailStore alwaysOkRepair alwaysFailStoreErr
    alwaysOkRepairOut (.arr []) "req" (fun _ _ => rfl) (fun _ _ _ => rfl)

/-- C3: for any `maxAttempts ≥ 2`, if the first store attempt fails and the
subsequent repair call itself raises, `executeQueryWithRetry` terminates
immediately with the repair error — one store attempt, one repair call, and
no second store attempt even though attempts remain within the bound. -/
theorem executeWithRetry_repair_short_circuit
    (store : Nat → JsonValue → Except String (List JsonValue))
    (repair : String → String → JsonValue → Except String JsonValue)
    (q : JsonValue) (req : String) (maxRetries : Int) (hmax : 2 ≤ maxRetries)
    (e0 fixMsg : String)
    (hstore : store 0 (convertDateStrings (jsonRoundTrip q)) = .error e0)
    (hrepair : repair req e0 q = .error fixMsg) :
    executeQueryWithRetry store repair q req maxRetries =
      ([.storeAttempt (convertDateStrings (jsonRoundTrip q)), .repairCall q e0],
        .error ("Query could not be fixed: " ++ fixMsg)) ∧
    (executeQueryWithRetry store repair q req maxRetries).1.countP isStoreEvent = 1 ∧
    (executeQueryWithRetry store repair q req maxRetries).1.countP isRepairEvent = 1 := by
  obtain ⟨k, hk⟩ : ∃ k, maxRetries.toNat = k + 2 :=
    ⟨maxRetries.toNat - 2, by omega⟩
  have hrun : executeQueryWithRetry store repair q req maxRetries =
      ([.storeAttempt (convertDateStrings (jsonRoundTrip q)), .repairCall q e0],
        .error ("Query could not be fixed: " ++ fixMsg)) := by
    show execLoop store repair req maxRetries.toNat maxRetries.toNat 0 q = _
    rw [hk]
    show execLoop store repair req (k + 2) (k + 1 + 1) 0 q = _
    rw [execLoop_err_repairFail hstore (Nat.succ_ne_zero k) hrepair]
  exact ⟨hrun, by rw [hrun]; rfl, by rw [hrun]; rfl⟩

/-- C3 (witness): the short-circuit at a concrete always-failing store and
a repairer whose own response fails to parse. -/
theorem executeWithRetry_repair_short_circuit_witness :
    ((2 : Int) ≤ 2) ∧
    executeQueryWithRetry alwaysFailStore alwaysFailRepair (.arr []) "req" 2 =
      ([.storeAttempt (convertDateStrings (jsonRoundTrip (.arr []))),
        .repairCall (.arr []) "boom"],
        .error ("Query could not be fixed: " ++ "Unexpected token")) :=
  ⟨by decide,
    (executeWithRetry_repair_short_circuit alwaysFailStore alwaysFailRepair (.arr []) "req" 2
      (by decide) "boom" "Unexpected token" rfl rfl).1⟩

/-- C9: calling `executeQueryWithRetry` with a non-positive `maxRetries`
performs no store attempt and no repair call and returns the JavaScript
`undefined` instead of raising — the `maxAttempts ≥ 1` precondition is not
checked or enforced. -/
theorem executeWithRetry_nonpositive
    (store : Nat → JsonValue → Except String (List JsonValue))
    (repair : String → String → JsonValue → Except String JsonValue)
    (q : JsonValue) (req : String) (m : Int) (hm : m ≤ 0) :
    executeQueryWithRetry store repair q req m = ([], .undef) := by
  show execLoop store repair req m.toNat m.toNat 0 q = _
  rw [Int.toNat_of_nonpos hm]
  rfl

/-- C9 (witness): `maxRetries = 0` at concrete stubs. -/
theorem executeWithRetry_nonpositive_witness :
    ((0 : Int) ≤ 0) ∧
    executeQueryWithRetry alwaysFailStore alwaysOkRepair (.arr []) "req" 0 = ([], .undef) :=
  ⟨by decide,
    executeWithRetry_nonpositive alwaysFailStore alwaysOkRepair (.arr []) "req" 0 (by decide)⟩

/-- Trace-shape lemma for the executor loop: every store attempt in the
trace receives the re-normalized deep copy of a base query that is either
the loop's current query value or the untouched output of some successful
repair call, and every repair call receives such a base query itself —
never the converted copy. -/
theorem execLoop_trace_shape
    (store : Nat → JsonValue → Except String (List JsonValue))
    (repair : String → String → JsonValue → Except String JsonValue)
    (req : String) (n : Nat) :
    ∀ (remaining attempt : Nat) (cur : JsonValue),
    (∀ pq, ExecEvent.storeAttempt pq ∈ (execLoop store repair req n remaining attempt cur).1 →
      ∃ b, pq = convertDateStrings (jsonRoundTrip b) ∧
        (b = cur ∨ ∃ o e f, repair o e f = .ok b)) ∧
    (∀ fq e, ExecEvent.repairCall fq e ∈ (execLoop store repair req n remaining attempt cur).1 →
      fq = cur ∨ ∃ o e' f', repair o e' f' = .ok fq) := by
  intro remaining
  induction remaining with
  | zero =>
    intro attempt cur
    constructor
    · intro pq hmem; rw [execLoop_zero] at hmem; simp at hmem
    · intro fq e hmem; rw [execLoop_zero] at hmem; simp at hmem
  | succ r ih =>
    intro attempt cur
    cases hs : store attempt (convertDateStrings (jsonRoundTrip cur)) with
    | ok rs =>
      constructor
      · intro pq hmem
        rw [execLoop_ok hs] at hmem
        simp at hmem
        exact ⟨cur, hmem, Or.inl rfl⟩
      · intro fq e hmem
        rw [execLoop_ok hs] at hmem
        simp at hmem
    | error e0 =>
      cases r with
      | zero =>
        constructor
        · intro pq hmem
          rw [execLoop_err_last hs] at hmem
          simp at hmem
          exact ⟨cur, hmem, Or.inl rfl⟩
        · intro fq e hmem
          rw [execLoop_err_last hs] at hmem
          simp at hmem
      | succ r' =>
        cases hr : repair req e0 cur with
        | ok q1 =>
          constructor
          · intro pq hmem
            rw [execLoop_err_repairOk hs (Nat.succ_ne_zero r') hr] at hmem
            simp only [List.mem_cons] at hmem
            rcases hmem with h | h | h
            · simp at h
              exact ⟨cur, h, Or.inl rfl⟩
            · simp at h
            · obtain ⟨b, hb, hbor⟩ := (ih (attempt + 1) q1).1 pq h
              refine ⟨b, hb, Or.inr ?_⟩
              rcases hbor with hbq | ⟨o, e', f', hof⟩
              · exact ⟨req, e0, cur, by rw [hbq]; exact hr⟩
              · exact ⟨o, e', f', hof⟩
          · intro fq e hmem
            rw [execLoop_err_repairOk hs (Nat.succ_ne_zero r') hr] at hmem
            simp only [List.mem_cons] at hmem
            rcases hmem with h | h | h
            · simp at h
            · simp at h
              exact Or.inl h.1
            · rcases (ih (attempt + 1) q1).2 fq e h with hbq | hex
              · exact Or.inr ⟨req, e0, cur, by rw [hbq]; exact hr⟩
              · exact Or.inr hex
        | error fm =>
          constructor
          · intro pq hmem
            rw [execLoop_err_repairFail hs (Nat.succ_ne_zero r') hr] at hmem
            simp at hmem
            exact ⟨cur, hmem, Or.inl rfl⟩
          · intro fq e hmem
            rw [execLoop_err_repairFail hs (Nat.succ_ne_zero r') hr] at hmem
            simp at hmem
            exact Or.inl hmem.1

/-- C8: before every store attempt the current query is deep-copied and the
copy re-normalized — every store attempt in the trace receives
`convertDateStrings (jsonRoundTrip b)` where the base `b` is the caller's
query value or a repair output, never a value mutated by an earlier attempt;
and every repair call receives such an unmutated base query, not the
converted copy. -/
theorem executeWithRetry_no_mutation
    (store : Nat → JsonValue → Except String (List JsonValue))
    (repair : String → String → JsonValue → Except String JsonValue)
    (q : JsonValue) (req : String) (maxRetries : Int) :
    (∀ pq, ExecEvent.storeAttempt pq ∈ (executeQueryWithRetry store repair q req maxRetries).1 →
      ∃ b, pq = convertDateStrings (jsonRoundTrip b) ∧
        (b = q ∨ ∃ o e f, repair o e f = .ok b)) ∧
    (∀ fq e, ExecEvent.repairCall fq e ∈ (executeQueryWithRetry store repair q req maxRetries).1 →
      fq = q ∨ ∃ o e' f', repair o e' f' = .ok fq) :=
  execLoop_trace_shape store repair req maxRetries.toNat maxRetries.toNat 0 q

/-- C8 (witness): in a concrete one-attempt run the store attempt's query is
the re-normalized deep copy of the caller's query. -/
theorem executeWithRetry_no_mutation_witness :
    ∃ b, convertDateStrings (jsonRoundTrip (JsonValue.arr [JsonValue.str "2025-03-14T00:00:00.000Z"])) =
        convertDateStrings (jsonRoundTrip b) ∧
      (b = JsonValue.arr [JsonValue.str "2025-03-14T00:00:00.000Z"] ∨
        ∃ o e f, alwaysOkRepair o e f = .ok b) :=
  (executeWithRetry_no_mutation alwaysFailStore alwaysOkRepair
    (.arr [.str "2025-03-14T00:00:00.000Z"]) "req" 1).1
    (convertDateStrings (jsonRoundTrip (.arr [.str "2025-03-14T00:00:00.000Z"])))
    (List.Mem.head _)

/-! ## Claim theorems: the Translator's repair operation -/

/-- C4 (counterexample): `fixQuery` returns a non-array parsed value as a
repaired query — the response `5` parses to the JSON number 5, which is not
an array, and `fixQuery` returns it successfully instead of failing, because
unlike `generateQuery` it has no `Array.isArray` check. -/
theorem fixQuery_no_array_check_counterexample :
    fixQuery tinyJsonParse (some "5") = .ok (.num 5) ∧ isArrB (.num 5) = false :=
  ⟨rfl, rfl⟩

/-- C4 (amended): `fixQuery` fails with a repair error whenever the response
is missing, or empty after trimming, or the fence-stripped text does not
parse as JSON; but it performs no array check: whatever JSON value the text
parses to — array or not — is returned (date-converted) as the repaired
query. -/
theorem fixQuery_parse_discipline
    (parse : String → Except String JsonValue) (content : String) :
    (jsTrim content = "" →
      fixQuery parse (some content) =
        .error ("Failed to fix query: " ++ "No response from Groq API")) ∧
    (∀ e, jsTrim content ≠ "" → parse (stripFences (jsTrim content)) = .error e →
      fixQuery parse (some content) = .error ("Failed to fix query: " ++ e)) ∧
    (∀ v, jsTrim content ≠ "" → parse (stripFences (jsTrim content)) = .ok v →
      fixQuery parse (some content) = .ok (convertDateStrings v)) ∧
    fixQuery parse none = .error ("Failed to fix query: " ++ "No response from Groq API") := by
  refine ⟨?_, ?_, ?_, rfl⟩
  · intro hemp
    have hbody : fixQueryBody parse (some content) = .error "No response from Groq API" := by
      unfold fixQueryBody
      dsimp only
      rw [if_pos hemp]
    unfold fixQuery
    rw [hbody]
  · intro e hne he
    have hbody : fixQueryBody parse (some content) = .error e := by
      unfold fixQueryBody
      dsimp only
      rw [if_neg hne, he]
    unfold fixQuery
    rw [hbody]
  · intro v hne hv
    have hbody : fixQueryBody parse (some content) = .ok (convertDateStrings v) := by
      unfold fixQueryBody
      dsimp only
      rw [if_neg hne, hv]
    unfold fixQuery
    rw [hbody]

/-- C4 (witness): a whitespace-only response is rejected as missing, and a
non-JSON response is rejected with the wrapped repair error, both at
concrete inputs. -/
theorem fixQuery_parse_discipline_witness :
    (jsTrim "  " = "") ∧
    fixQuery tinyJsonParse (some "  ") =
      .error ("Failed to fix query: " ++ "No response from Groq API") ∧
    (jsTrim "zzz" ≠ "") ∧
    fixQuery tinyJsonParse (some "zzz") =
      .error ("Failed to fix query: " ++ "Unexpected token") :=
  ⟨by decide,
    (fixQuery_parse_discipline tinyJsonParse "  ").1 (by decide),
    by decide,
    (fixQuery_parse_discipline tinyJsonParse "zzz").2.1 "Unexpected token" (by decide) rfl⟩

/-! ## Claim theorems: the outward HTTP boundary -/

/-- C7: at the outward boundary, a result set of more than 200 records is
presented as exactly its first 50 records, and a result set of at most 200
records is presented in full and in order. -/
theorem truncation_policy (R : List JsonValue) :
    (200 < R.length → truncateResults R = R.take 50) ∧
    (R.length ≤ 200 → truncateResults R = R) := by
  constructor
  · intro h
    unfold truncateResults
    rw [if_neg (by omega)]
  · intro h
    unfold truncateResults
    rw [if_pos h]

/-- C7 (witness): the truncation policy at sizes 201, 200 and 150. -/
theorem truncation_policy_witness :
    (200 < (List.replicate 201 JsonValue.null).length ∧
      truncateResults (List.replicate 201 JsonValue.null) =
        (List.replicate 201 JsonValue.null).take 50) ∧
    ((List.replicate 200 JsonValue.null).length ≤ 200 ∧
      truncateResults (List.replicate 200 JsonValue.null) = List.replicate 200 JsonValue.null) ∧
    ((List.replicate 150 JsonValue.null).length ≤ 200 ∧
      truncateResults (List.replicate 150 JsonValue.null) = List.replicate 150 JsonValue.null) :=
  ⟨⟨by rw [List.length_replicate]; try omega,
    (truncation_policy _).1 (by rw [List.length_replicate]; try omega)⟩,
   ⟨by rw [List.length_replicate]; try omega,
    (truncation_policy _).2 (by rw [List.length_replicate]; try omega)⟩,
   ⟨by rw [List.length_replicate]; try omega,
    (truncation_policy _).2 (by rw [List.length_replicate]; try omega)⟩⟩
